import Mathlib

/-!
Verification of the core logic of `portfolio_tracker.py`: the ledger /
cost-basis engine, the multi-provider forex rate aggregator, and the
threshold alert engine.  Python floats are modelled as rationals (`ℚ`);
Python `None` as `Option.none`; a provider's HTTP+JSON response as an
`Option` of an association-list rate table (with `none` standing for any
transport error, timeout or malformed payload, all of which the source
converts to `None` via a bare `except`).
-/

namespace PortfolioTracker

/-- A row of the `transactions` table: `quantity > 0` is a buy,
`quantity < 0` a sell, `price` the unit price. -/
structure Tx where
  user_id : ℕ
  symbol_id : ℕ
  quantity : ℚ
  price : ℚ
deriving DecidableEq, Repr

/-- A row of the `symbols` table. -/
structure Symbol where
  id : ℕ
  name : String
deriving DecidableEq, Repr

/-- A row of the `alerts` table; the thresholds are nullable columns. -/
structure Alert where
  symbol_id : ℕ
  upper_threshold : Option ℚ
  lower_threshold : Option ℚ
  active : Bool
deriving DecidableEq, Repr

/-! ### Ledger / cost basis (`calculate_average_cost_basis`, `get_current_holdings`) -/

/-- The transactions of one `(user_id, symbol_id)` pair: the SQL filter at
the top of `calculate_average_cost_basis`. -/
def pairTxs (txs : List Tx) (user_id symbol_id : ℕ) : List Tx :=
  txs.filter fun t => t.user_id == user_id && t.symbol_id == symbol_id

/-- The accumulation loop of `calculate_average_cost_basis`: running
`(total_cost, total_quantity)`, adding `quantity * price` and `quantity`
for buys (`quantity > 0`) and skipping every other transaction. -/
def cabLoop : List Tx → ℚ × ℚ → ℚ × ℚ
  | [], acc => acc
  | t :: rest, acc =>
    if 0 < t.quantity then
      cabLoop rest (acc.1 + t.quantity * t.price, acc.2 + t.quantity)
    else
      cabLoop rest acc

/-- `calculate_average_cost_basis(session, user_id, symbol_id)`: filter the
transactions of the pair, sum cost and quantity over buys, divide, and
return `0.0` when the buy quantity total is not positive. -/
def calculate_average_cost_basis (txs : List Tx) (user_id symbol_id : ℕ) : ℚ :=
  let acc := cabLoop (pairTxs txs user_id symbol_id) (0, 0)
  if 0 < acc.2 then acc.1 / acc.2 else 0

/-- The acquisition (`quantity > 0`) transactions of a ledger slice. -/
def buys (ts : List Tx) : List Tx :=
  ts.filter fun t => decide (0 < t.quantity)

/-- `total_cost`: the sum of `quantity * price` over the buys. -/
def buyCost (ts : List Tx) : ℚ :=
  ((buys ts).map fun t => t.quantity * t.price).sum

/-- `total_quantity`: the sum of `quantity` over the buys. -/
def buyQty (ts : List Tx) : ℚ :=
  ((buys ts).map fun t => t.quantity).sum

/-- The rows produced by the SQL join in `get_current_holdings`: the user's
transactions, each joined to the name of its symbol (an inner join, so a
transaction whose `symbol_id` resolves to no symbol contributes no row). -/
def holdingsRows (symbols : List Symbol) (txs : List Tx) (user_id : ℕ) :
    List (String × ℚ) :=
  (txs.filter fun t => t.user_id == user_id).filterMap fun t =>
    (symbols.find? fun s => s.id == t.symbol_id).map fun s => (s.name, t.quantity)

/-- `SUM(transactions.quantity)` of one `GROUP BY symbols.name` group:
the sum of the quantities of the rows carrying the given name. -/
def groupQuantitySum (rows : List (String × ℚ)) (n : String) : ℚ :=
  ((rows.filter fun r => r.1 == n).map Prod.snd).sum

/-- `get_current_holdings(session, user_id)`: group the joined rows by
symbol name and sum the (signed) quantities of each group. -/
def get_current_holdings (symbols : List Symbol) (txs : List Tx) (user_id : ℕ) :
    List (String × ℚ) :=
  let rows := holdingsRows symbols txs user_id
  ((rows.map Prod.fst).dedup).map fun n => (n, groupQuantitySum rows n)

/-- Modelled from the spec: the net quantity the spec ascribes to a
symbol name — the signed sum of all of the user's transaction quantities
whose symbol resolves to that name, with no filtering by sign or type.
Stated separately from `get_current_holdings` so the code's grouped SQL
sum can be compared against it. -/
def specNetQuantity (symbols : List Symbol) (txs : List Tx) (user_id : ℕ)
    (n : String) : ℚ :=
  ((txs.filter fun t => t.user_id == user_id &&
      ((symbols.find? fun s => s.id == t.symbol_id).map Symbol.name == some n)).map
    Tx.quantity).sum

/-! ### Forex rate aggregation (`PROVIDER_CONFIG`, `fetch_forex_rate`,
`get_advanced_forex_rate`) -/

/-- A provider's parsed JSON rate object, e.g. `data["rates"]`. -/
abbrev RateTable := List (String × ℚ)

/-- `PROVIDER_CONFIG` as the ordered list of (provider key, reliability
weight) pairs the aggregation loop iterates over; the endpoint URLs are
irrelevant to the logic. -/
def PROVIDER_CONFIG : List (String × ℚ) :=
  [("EXCHANGERATE_HOST", 1), ("EXCHANGERATE_API", 4/5), ("OPEN_EXCHANGE_RATES", 9/10)]

/-- The configured provider keys, in iteration order. -/
def providerKeys : List String := PROVIDER_CONFIG.map Prod.fst

/-- `fetch_forex_rate(provider_key, base, target)` with the network
abstracted as `resps : String → Option RateTable`, giving each provider's
response table (`none` = transport error / malformed payload; every
exception inside the `try` is turned into `None` by the bare `except`).
`EXCHANGERATE_HOST` reads `data["rates"][target]` (a missing key raises,
hence `None`); `EXCHANGERATE_API` reads `data["conversion_rates"].get(target)`;
`OPEN_EXCHANGE_RATES` returns `rates.get(target)` for a USD base and
otherwise `rates[target] / rates[base]` when both legs are present — a zero
base rate raises `ZeroDivisionError`, which the `except` turns into `None`. -/
def fetch_forex_rate (resps : String → Option RateTable)
    (provider_key base target : String) : Option ℚ :=
  if provider_key == "EXCHANGERATE_HOST" then
    match resps provider_key with
    | none => none
    | some data => data.lookup target
  else if provider_key == "EXCHANGERATE_API" then
    match resps provider_key with
    | none => none
    | some data => data.lookup target
  else if provider_key == "OPEN_EXCHANGE_RATES" then
    match resps provider_key with
    | none => none
    | some rates =>
      if base == "USD" then rates.lookup target
      else
        match rates.lookup base, rates.lookup target with
        | some rb, some rt => if rb == 0 then none else some (rt / rb)
        | _, _ => none
  else none

/-- The accumulation loop of `get_advanced_forex_rate`: running
`(total_weighted_rate, total_weight)` over the configured providers,
adding `rate * weight` and `weight` when the provider's fetch succeeded
and skipping the provider otherwise. -/
def aggLoop (fetch : String → Option ℚ) : List (String × ℚ) → ℚ × ℚ → ℚ × ℚ
  | [], acc => acc
  | pw :: rest, acc =>
    match fetch pw.1 with
    | some r => aggLoop fetch rest (acc.1 + r * pw.2, acc.2 + pw.2)
    | none => aggLoop fetch rest acc

/-- The aggregation body of `get_advanced_forex_rate`, parametric in the
provider configuration: run the loop and return the weighted average when
`total_weight > 0`, `None` otherwise. -/
def aggregate (cfg : List (String × ℚ)) (fetch : String → Option ℚ) : Option ℚ :=
  let acc := aggLoop fetch cfg (0, 0)
  if 0 < acc.2 then some (acc.1 / acc.2) else none

/-- `get_advanced_forex_rate(base, target)` with the per-provider fetch
abstracted as an oracle `fetch : String → Option ℚ` (in the source,
`fetch pk = fetch_forex_rate(pk, base, target)`). -/
def get_advanced_forex_rate (fetch : String → Option ℚ) : Option ℚ :=
  aggregate PROVIDER_CONFIG fetch

/-- The successful quotes of an aggregation call: the `(rate, weight)`
pairs of the configured providers whose fetch returned a rate, in
configuration order. -/
def successes (cfg : List (String × ℚ)) (fetch : String → Option ℚ) :
    List (ℚ × ℚ) :=
  cfg.filterMap fun pw => (fetch pw.1).map fun r => (r, pw.2)

/-- `Σ (rate · weight)` over a list of quotes. -/
def quoteSum (qs : List (ℚ × ℚ)) : ℚ := (qs.map fun q => q.1 * q.2).sum

/-- `Σ weight` over a list of quotes. -/
def weightSum (qs : List (ℚ × ℚ)) : ℚ := (qs.map fun q => q.2).sum

/-! ### Alert engine (`check_and_trigger_alerts`) -/

/-- The direction of a threshold breach. -/
inductive Direction where
  | above
  | below
deriving DecidableEq, Repr

/-- One emitted trigger message: breach direction, the threshold breached,
and the current price (one `msg_lines` entry in the source). -/
structure Trigger where
  direction : Direction
  threshold : ℚ
  price : ℚ
deriving DecidableEq, Repr

/-- The upper-threshold check `if alert.upper_threshold and
current_price >= alert.upper_threshold`: a `None` threshold — and, by
Python truthiness, a threshold equal to `0` — is skipped without being
compared. -/
def upperTriggers (price : ℚ) (a : Alert) : List Trigger :=
  match a.upper_threshold with
  | none => []
  | some t => if t ≠ 0 ∧ t ≤ price then [⟨Direction.above, t, price⟩] else []

/-- The lower-threshold check `if alert.lower_threshold and
current_price <= alert.lower_threshold`, with the same truthiness
behaviour on `None` and `0`. -/
def lowerTriggers (price : ℚ) (a : Alert) : List Trigger :=
  match a.lower_threshold with
  | none => []
  | some t => if t ≠ 0 ∧ price ≤ t then [⟨Direction.below, t, price⟩] else []

/-- The `msg_lines` built for one alert: the upper check first, then,
independently, the lower check. -/
def alertTriggers (price : ℚ) (a : Alert) : List Trigger :=
  upperTriggers price a ++ lowerTriggers price a

/-- `check_and_trigger_alerts(session, symbol_name, current_price)`:
resolve the symbol by name (returning immediately when it does not
exist), select the active alerts of the symbol, and collect every trigger
message they emit at the current price. -/
def check_and_trigger_alerts (symbols : List Symbol) (alerts : List Alert)
    (symbol_name : String) (current_price : ℚ) : List Trigger :=
  match symbols.find? fun s => s.name == symbol_name with
  | none => []
  | some s =>
    ((alerts.filter fun a => a.symbol_id == s.id && a.active).map
      (alertTriggers current_price)).flatten

/-! ### Helper lemmas: ledger -/

theorem cabLoop_eq (ts : List Tx) (acc : ℚ × ℚ) :
    cabLoop ts acc = (acc.1 + buyCost ts, acc.2 + buyQty ts) := by
  induction ts generalizing acc with
  | nil => simp [cabLoop, buyCost, buyQty, buys]
  | cons t rest ih =>
    by_cases h : 0 < t.quantity
    · rw [cabLoop, if_pos h, ih]
      simp [buyCost, buyQty, buys, List.filter_cons, h, Prod.mk.injEq]
      constructor <;> ring
    · rw [cabLoop, if_neg h, ih]
      simp [buyCost, buyQty, buys, List.filter_cons, h]

theorem cab_eq (txs : List Tx) (uid sid : ℕ) :
    calculate_average_cost_basis txs uid sid =
      if 0 < buyQty (pairTxs txs uid sid) then
        buyCost (pairTxs txs uid sid) / buyQty (pairTxs txs uid sid)
      else 0 := by
  simp [calculate_average_cost_basis, cabLoop_eq]

theorem buyQty_pos (ts : List Tx) (t : Tx) (ht : t ∈ ts) (hq : 0 < t.quantity) :
    0 < buyQty ts := by
  have htb : t ∈ buys ts := List.mem_filter.2 ⟨ht, decide_eq_true hq⟩
  refine List.sum_pos _ ?_ ?_
  · intro x hx
    rcases List.mem_map.1 hx with ⟨u, hu, rfl⟩
    exact of_decide_eq_true (List.mem_filter.1 hu).2
  · exact List.ne_nil_of_mem (List.mem_map_of_mem _ htb)

theorem buys_perm {ts ts2 : List Tx} (h : ts.Perm ts2) : (buys ts).Perm (buys ts2) :=
  h.filter _

theorem buyCost_perm {ts ts2 : List Tx} (h : ts.Perm ts2) : buyCost ts = buyCost ts2 :=
  ((buys_perm h).map _).sum_eq

theorem buyQty_perm {ts ts2 : List Tx} (h : ts.Perm ts2) : buyQty ts = buyQty ts2 :=
  ((buys_perm h).map _).sum_eq

theorem pairTxs_perm {txs txs2 : List Tx} (uid sid : ℕ) (h : txs.Perm txs2) :
    (pairTxs txs uid sid).Perm (pairTxs txs2 uid sid) :=
  h.filter _

/-! ### Helper lemmas: holdings -/

theorem lookup_map_self {l : List String} {f : String → ℚ} (hnd : l.Nodup)
    {n : String} (hn : n ∈ l) :
    (l.map fun m => (m, f m)).lookup n = some (f n) := by
  induction l with
  | nil => cases hn
  | cons m rest ih =>
    rcases List.mem_cons.1 hn with rfl | hmem
    · simp [List.lookup]
    · have hne : n ≠ m := fun e => (List.nodup_cons.1 hnd).1 (e ▸ hmem)
      have : (n == m) = false := beq_eq_false_iff_ne.2 hne
      simp [List.lookup, this, ih (List.nodup_cons.1 hnd).2 hmem]

theorem lookup_map_self_none {l : List String} {f : String → ℚ} {n : String}
    (hn : n ∉ l) :
    (l.map fun m => (m, f m)).lookup n = none := by
  induction l with
  | nil => simp [List.lookup]
  | cons m rest ih =>
    have hne : n ≠ m := fun e => hn (e ▸ List.mem_cons_self m rest)
    have : (n == m) = false := beq_eq_false_iff_ne.2 hne
    simp [List.lookup, this, ih fun hmem => hn (List.mem_cons_of_mem _ hmem)]

theorem holdings_lookup_of_mem (symbols : List Symbol) (txs : List Tx)
    (uid : ℕ) {n : String} (hn : n ∈ (holdingsRows symbols txs uid).map Prod.fst) :
    (get_current_holdings symbols txs uid).lookup n =
      some (groupQuantitySum (holdingsRows symbols txs uid) n) := by
  unfold get_current_holdings
  exact lookup_map_self (List.nodup_dedup _) (List.mem_dedup.2 hn)

theorem holdings_lookup_of_not_mem (symbols : List Symbol) (txs : List Tx)
    (uid : ℕ) {n : String}
    (hn : n ∉ (holdingsRows symbols txs uid).map Prod.fst) :
    (get_current_holdings symbols txs uid).lookup n = none := by
  unfold get_current_holdings
  exact lookup_map_self_none fun hmem => hn (List.mem_dedup.1 hmem)

theorem holdingsRows_perm (symbols : List Symbol) {txs txs2 : List Tx} (uid : ℕ)
    (h : txs.Perm txs2) :
    (holdingsRows symbols txs uid).Perm (holdingsRows symbols txs2 uid) :=
  (h.filter _).filterMap _

theorem groupQuantitySum_perm {rows rows2 : List (String × ℚ)} (n : String)
    (h : rows.Perm rows2) : groupQuantitySum rows n = groupQuantitySum rows2 n :=
  ((h.filter _).map _).sum_eq

theorem groupQuantitySum_eq_specNet (symbols : List Symbol) (txs : List Tx)
    (uid : ℕ) (n : String) :
    groupQuantitySum (holdingsRows symbols txs uid) n =
      specNetQuantity symbols txs uid n := by
  induction txs with
  | nil => simp [groupQuantitySum, holdingsRows, specNetQuantity]
  | cons t rest ih =>
    by_cases hu : (t.user_id == uid) = true
    · rcases hs : symbols.find? fun s => s.id == t.symbol_id with _ | s
      · simp only [groupQuantitySum, holdingsRows, specNetQuantity,
          List.filter_cons, hu] at ih ⊢
        simp only [List.filterMap_cons, hs, Option.map_none, if_true,
          Bool.true_and, Option.map, beq_eq_false_iff_ne]
        simpa [hs] using ih
      · by_cases hname : (s.name == n) = true
        · simp only [groupQuantitySum, holdingsRows, specNetQuantity,
            List.filter_cons, hu] at ih ⊢
          simp [List.filterMap_cons, hs, hname, ih]
        · simp only [groupQuantitySum, holdingsRows, specNetQuantity,
            List.filter_cons, hu] at ih ⊢
          simp [List.filterMap_cons, hs, hname, ih]
    · simp only [groupQuantitySum, holdingsRows, specNetQuantity,
        List.filter_cons, hu] at ih ⊢
      simpa using ih

/-! ### Helper lemmas: forex aggregation -/

theorem aggLoop_eq (fetch : String → Option ℚ) (cfg : List (String × ℚ))
    (acc : ℚ × ℚ) :
    aggLoop fetch cfg acc =
      (acc.1 + quoteSum (successes cfg fetch), acc.2 + weightSum (successes cfg fetch)) := by
  induction cfg generalizing acc with
  | nil => simp [aggLoop, successes, quoteSum, weightSum]
  | cons pw rest ih =>
    rcases hf : fetch pw.1 with _ | r
    · rw [aggLoop]
      simp only [hf]
      rw [ih]
      simp [successes, quoteSum, weightSum, List.filterMap_cons, hf]
    · rw [aggLoop]
      simp only [hf]
      rw [ih]
      simp [successes, quoteSum, weightSum, List.filterMap_cons, hf, Prod.mk.injEq]
      constructor <;> ring

theorem aggregate_eq (cfg : List (String × ℚ)) (fetch : String → Option ℚ) :
    aggregate cfg fetch =
      if 0 < weightSum (successes cfg fetch) then
        some (quoteSum (successes cfg fetch) / weightSum (successes cfg fetch))
      else none := by
  simp [aggregate, aggLoop_eq]

theorem successes_weight_mem {cfg : List (String × ℚ)}
    {fetch : String → Option ℚ} {q : ℚ × ℚ} (hq : q ∈ successes cfg fetch) :
    ∃ pk, (pk, q.2) ∈ cfg := by
  rcases List.mem_filterMap.1 hq with ⟨pw, hpw, hmap⟩
  rcases hr : fetch pw.1 with _ | r
  · rw [hr] at hmap
    cases hmap
  · rw [hr] at hmap
    refine ⟨pw.1, ?_⟩
    cases hmap.symm.trans rfl
    simp_all

theorem weightSum_pos {cfg : List (String × ℚ)} {fetch : String → Option ℚ}
    (hw : ∀ pw ∈ cfg, 0 < pw.2) (hne : successes cfg fetch ≠ []) :
    0 < weightSum (successes cfg fetch) := by
  refine List.sum_pos _ ?_ ?_
  · intro x hx
    rcases List.mem_map.1 hx with ⟨q, hq, rfl⟩
    rcases successes_weight_mem hq with ⟨pk, hpk⟩
    exact hw _ hpk
  · simpa using hne

theorem quoteSum_le (qs : List (ℚ × ℚ)) (hi : ℚ)
    (hw : ∀ q ∈ qs, 0 ≤ q.2) (hr : ∀ q ∈ qs, q.1 ≤ hi) :
    quoteSum qs ≤ hi * weightSum qs := by
  induction qs with
  | nil => simp [quoteSum, weightSum]
  | cons q rest ih =>
    have h1 : q.1 * q.2 ≤ hi * q.2 :=
      mul_le_mul_of_nonneg_right (hr q (List.mem_cons_self q rest))
        (hw q (List.mem_cons_self q rest))
    have h2 := ih (fun x hx => hw x (List.mem_cons_of_mem _ hx))
      (fun x hx => hr x (List.mem_cons_of_mem _ hx))
    simp only [quoteSum, weightSum, List.map_cons, List.sum_cons, mul_add]
    exact add_le_add h1 h2

theorem le_quoteSum (qs : List (ℚ × ℚ)) (lo : ℚ)
    (hw : ∀ q ∈ qs, 0 ≤ q.2) (hr : ∀ q ∈ qs, lo ≤ q.1) :
    lo * weightSum qs ≤ quoteSum qs := by
  induction qs with
  | nil => simp [quoteSum, weightSum]
  | cons q rest ih =>
    have h1 : lo * q.2 ≤ q.1 * q.2 :=
      mul_le_mul_of_nonneg_right (hr q (List.mem_cons_self q rest))
        (hw q (List.mem_cons_self q rest))
    have h2 := ih (fun x hx => hw x (List.mem_cons_of_mem _ hx))
      (fun x hx => hr x (List.mem_cons_of_mem _ hx))
    simp only [quoteSum, weightSum, List.map_cons, List.sum_cons, mul_add]
    exact add_le_add h1 h2

theorem successes_eq_nil {cfg : List (String × ℚ)} {fetch : String → Option ℚ}
    (h : ∀ pw ∈ cfg, fetch pw.1 = none) : successes cfg fetch = [] := by
  induction cfg with
  | nil => rfl
  | cons pw rest ih =>
    simp only [successes, List.filterMap_cons, h pw (List.mem_cons_self pw rest),
      Option.map_none]
    exact ih fun x hx => h x (List.mem_cons_of_mem _ hx)

theorem successes_filter_failed {cfg : List (String × ℚ)}
    {fetch : String → Option ℚ} {pk : String} (h : fetch pk = none) :
    successes (cfg.filter fun pw => !(pw.1 == pk)) fetch = successes cfg fetch := by
  induction cfg with
  | nil => rfl
  | cons pw rest ih =>
    by_cases hpk : (pw.1 == pk) = true
    · have : fetch pw.1 = none := by rw [beq_iff_eq.1 hpk, h]
      simp [successes, List.filter_cons, hpk, List.filterMap_cons, this] at ih ⊢
      exact ih
    · simp only [successes, List.filter_cons, hpk, Bool.not_false,
        List.filterMap_cons] at ih ⊢
      rcases hf : fetch pw.1 with _ | r
      · simpa [hf] using ih
      · simp [hf, ih]

/-! ### Helper lemmas: alerts -/

theorem mem_check {symbols : List Symbol} {alerts : List Alert} {name : String}
    {price : ℚ} {s : Symbol} (hs : (symbols.find? fun x => x.name == name) = some s)
    {a : Alert} (ha : a ∈ alerts) (hid : a.symbol_id = s.id) (hact : a.active = true)
    {tr : Trigger} (htr : tr ∈ alertTriggers price a) :
    tr ∈ check_and_trigger_alerts symbols alerts name price := by
  unfold check_and_trigger_alerts
  rw [hs]
  refine List.mem_flatten.2 ⟨alertTriggers price a, ?_, htr⟩
  refine List.mem_map_of_mem _ (List.mem_filter.2 ⟨ha, ?_⟩)
  simp [hid, hact]

theorem check_cons_inactive {symbols : List Symbol} {alerts : List Alert}
    {name : String} {price : ℚ} {a : Alert} (hact : a.active = false) :
    check_and_trigger_alerts symbols (a :: alerts) name price =
      check_and_trigger_alerts symbols alerts name price := by
  unfold check_and_trigger_alerts
  rcases h : symbols.find? fun x => x.name == name with _ | s
  · rw [h]
  · rw [h]
    simp [List.filter_cons, hact]

/-! ## Claims -/

/-- C3: for every user and symbol, `averageCostBasis` equals the sum of
`quantity * price` over the acquisition (`quantity > 0`) transactions of
the pair divided by the sum of their quantities, and equals `0.0` — not
an error — when the pair has no acquisition transaction; on the ledger
`[buy 10 @ 120, sell 4 @ 150]` it returns `120.0`. -/
theorem C3_average_cost_basis :
    (∀ (txs : List Tx) (uid sid : ℕ), (∃ t ∈ pairTxs txs uid sid, 0 < t.quantity) →
      calculate_average_cost_basis txs uid sid =
        buyCost (pairTxs txs uid sid) / buyQty (pairTxs txs uid sid))
    ∧ (∀ (txs : List Tx) (uid sid : ℕ), (∀ t ∈ pairTxs txs uid sid, ¬ 0 < t.quantity) →
      calculate_average_cost_basis txs uid sid = 0)
    ∧ calculate_average_cost_basis [⟨1, 1, 10, 120⟩, ⟨1, 1, -4, 150⟩] 1 1 = 120 := by
  refine ⟨?_, ?_, ?_⟩
  · rintro txs uid sid ⟨t, ht, hq⟩
    rw [cab_eq, if_pos (buyQty_pos _ t ht hq)]
  · intro txs uid sid h
    have hb : buys (pairTxs txs uid sid) = [] := by
      refine List.filter_eq_nil_iff.2 fun t ht => ?_
      simpa using h t ht
    rw [cab_eq, if_neg]
    simp [buyQty, hb]
  · norm_num [calculate_average_cost_basis, pairTxs, cabLoop]

/-- C3 witness: the first conjunct applied to the two-transaction ledger
of the claim, whose buy transaction makes the hypothesis true. -/
theorem C3_average_cost_basis_witness :
    calculate_average_cost_basis [⟨1, 1, 10, 120⟩, ⟨1, 1, -4, 150⟩] 1 1 =
      buyCost (pairTxs [⟨1, 1, 10, 120⟩, ⟨1, 1, -4, 150⟩] 1 1) /
        buyQty (pairTxs [⟨1, 1, 10, 120⟩, ⟨1, 1, -4, 150⟩] 1 1) :=
  C3_average_cost_basis.1 _ 1 1 ⟨⟨1, 1, 10, 120⟩, by decide, by norm_num⟩

/-- C5: `averageCostBasis` is invariant under permutations of the
transaction list and unchanged by appending a disposal (`quantity < 0`)
transaction; the per-symbol grouped quantity sum of `get_current_holdings`
is the plain signed sum of the user's transaction quantities for that
symbol and the holdings mapping is invariant under reordering of the
transactions. -/
theorem C5_order_invariance :
    (∀ (txs txs2 : List Tx) (uid sid : ℕ), txs.Perm txs2 →
      calculate_average_cost_basis txs uid sid =
        calculate_average_cost_basis txs2 uid sid)
    ∧ (∀ (txs : List Tx) (d : Tx) (uid sid : ℕ), d.quantity < 0 →
      calculate_average_cost_basis (txs ++ [d]) uid sid =
        calculate_average_cost_basis txs uid sid)
    ∧ (∀ (symbols : List Symbol) (txs txs2 : List Tx) (uid : ℕ) (n : String),
      txs.Perm txs2 →
      (get_current_holdings symbols txs uid).lookup n =
        (get_current_holdings symbols txs2 uid).lookup n)
    ∧ (∀ (symbols : List Symbol) (txs : List Tx) (uid : ℕ) (n : String),
      groupQuantitySum (holdingsRows symbols txs uid) n =
        specNetQuantity symbols txs uid n) := by
  refine ⟨?_, ?_, ?_, fun symbols txs uid n => groupQuantitySum_eq_specNet _ _ _ _⟩
  · intro txs txs2 uid sid h
    rw [cab_eq, cab_eq, buyCost_perm (pairTxs_perm uid sid h),
      buyQty_perm (pairTxs_perm uid sid h)]
  · intro txs d uid sid hd
    have hdq : ¬ 0 < d.quantity := not_lt.2 hd.le
    have hb : buys (pairTxs (txs ++ [d]) uid sid) = buys (pairTxs txs uid sid) := by
      by_cases hc : (d.user_id == uid && d.symbol_id == sid) = true <;>
        simp [pairTxs, buys, List.filter_append, List.filter_cons, hc, hdq]
    rw [cab_eq, cab_eq]
    simp [buyCost, buyQty, hb]
  · intro symbols txs txs2 uid n hperm
    have hrows := holdingsRows_perm symbols uid hperm
    by_cases hmem : n ∈ (holdingsRows symbols txs uid).map Prod.fst
    · have hmem2 : n ∈ (holdingsRows symbols txs2 uid).map Prod.fst :=
        ((hrows.map _).mem_iff).1 hmem
      rw [holdings_lookup_of_mem _ _ _ hmem, holdings_lookup_of_mem _ _ _ hmem2,
        groupQuantitySum_perm n hrows]
    · have hmem2 : n ∉ (holdingsRows symbols txs2 uid).map Prod.fst :=
        fun h2 => hmem (((hrows.map _).mem_iff).2 h2)
      rw [holdings_lookup_of_not_mem _ _ _ hmem,
        holdings_lookup_of_not_mem _ _ _ hmem2]

/-- C5 witness: the conjuncts applied to concrete ledgers — a swap of the
two scenario transactions, a disposal appended to a one-buy ledger, a
reordered two-transaction holdings computation, and a grouped sum. -/
theorem C5_order_invariance_witness :
    calculate_average_cost_basis [⟨1, 1, 10, 120⟩, ⟨1, 1, -4, 150⟩] 1 1 =
      calculate_average_cost_basis [⟨1, 1, -4, 150⟩, ⟨1, 1, 10, 120⟩] 1 1
    ∧ calculate_average_cost_basis ([⟨1, 1, 10, 120⟩] ++ [⟨1, 1, -4, 150⟩]) 1 1 =
      calculate_average_cost_basis [⟨1, 1, 10, 120⟩] 1 1
    ∧ (get_current_holdings [⟨1, "AAPL"⟩] [⟨1, 1, 5, 10⟩, ⟨1, 1, -5, 12⟩] 1).lookup "AAPL" =
      (get_current_holdings [⟨1, "AAPL"⟩] [⟨1, 1, -5, 12⟩, ⟨1, 1, 5, 10⟩] 1).lookup "AAPL"
    ∧ groupQuantitySum (holdingsRows [⟨1, "AAPL"⟩] [⟨1, 1, 5, 10⟩] 1) "AAPL" =
      specNetQuantity [⟨1, "AAPL"⟩] [⟨1, 1, 5, 10⟩] 1 "AAPL" :=
  ⟨C5_order_invariance.1 _ _ 1 1 (by decide),
   C5_order_invariance.2.1 _ ⟨1, 1, -4, 150⟩ 1 1 (by norm_num),
   C5_order_invariance.2.2.1 _ _ _ 1 "AAPL" (by decide),
   C5_order_invariance.2.2.2 _ _ 1 "AAPL"⟩

/-- C6: `get_current_holdings` maps every symbol name the user has ever
(successfully joined) transacted to the signed, unfiltered sum of the
user's transaction quantities for that symbol — zero net positions
included — and contains no other names. -/
theorem C6_current_holdings (symbols : List Symbol) (txs : List Tx) (uid : ℕ)
    (n : String) :
    (n ∈ (holdingsRows symbols txs uid).map Prod.fst →
      (get_current_holdings symbols txs uid).lookup n =
        some (specNetQuantity symbols txs uid n))
    ∧ (n ∉ (holdingsRows symbols txs uid).map Prod.fst →
      (get_current_holdings symbols txs uid).lookup n = none) := by
  constructor
  · intro h
    rw [holdings_lookup_of_mem _ _ _ h, groupQuantitySum_eq_specNet]
  · intro h
    exact holdings_lookup_of_not_mem _ _ _ h

/-- C6 witness: a symbol whose ledger nets to exactly zero still appears in
the holdings mapping, and an untransacted name does not. -/
theorem C6_current_holdings_witness :
    (get_current_holdings [⟨1, "AAPL"⟩] [⟨1, 1, 5, 10⟩, ⟨1, 1, -5, 12⟩] 1).lookup "AAPL" =
      some (specNetQuantity [⟨1, "AAPL"⟩] [⟨1, 1, 5, 10⟩, ⟨1, 1, -5, 12⟩] 1 "AAPL")
    ∧ (get_current_holdings [⟨1, "AAPL"⟩] [⟨1, 1, 5, 10⟩, ⟨1, 1, -5, 12⟩] 1).lookup "MSFT" =
      none :=
  ⟨(C6_current_holdings _ _ 1 "AAPL").1 (by decide),
   (C6_current_holdings _ _ 1 "MSFT").2 (by decide)⟩

/-- C10: evaluating alerts for a symbol name without a `Symbol` record
returns immediately: no rule is evaluated and no trigger is emitted,
whatever the current price. -/
theorem C10_unknown_symbol (symbols : List Symbol) (alerts : List Alert)
    (name : String) (price : ℚ)
    (h : (symbols.find? fun s => s.name == name) = none) :
    check_and_trigger_alerts symbols alerts name price = [] := by
  unfold check_and_trigger_alerts
  rw [h]

/-- C10 witness: a catalog holding only `AAPL`, queried for `MSFT` with an
alert that would otherwise fire, emits nothing. -/
theorem C10_unknown_symbol_witness :
    check_and_trigger_alerts [⟨1, "AAPL"⟩] [⟨1, some 1, none, true⟩] "MSFT" 5 = [] :=
  C10_unknown_symbol _ _ "MSFT" 5 (by decide)

/-- C1: whenever at least one configured provider returns a rate, the
aggregation returns the weighted mean `Σ(rate·weight)/Σ(weight)` over
exactly the successful quotes, each with its configured reliability
weight — for any positively weighted configuration, in particular the
program's `PROVIDER_CONFIG`; with successful quotes
`{rate 1.10 weight 1.0, rate 1.12 weight 0.5}` and the third provider
failing, the result is `(1.10·1.0 + 1.12·0.5)/1.5 = 83/75`. -/
theorem C1_weighted_mean :
    (∀ (cfg : List (String × ℚ)) (fetch : String → Option ℚ),
      (∀ pw ∈ cfg, 0 < pw.2) → successes cfg fetch ≠ [] →
      aggregate cfg fetch =
        some (quoteSum (successes cfg fetch) / weightSum (successes cfg fetch)))
    ∧ (∀ fetch : String → Option ℚ, successes PROVIDER_CONFIG fetch ≠ [] →
      get_advanced_forex_rate fetch =
        some (quoteSum (successes PROVIDER_CONFIG fetch) /
          weightSum (successes PROVIDER_CONFIG fetch)))
    ∧ aggregate [("A", 1), ("B", 1/2), ("C", 1)]
        (fun pk => if pk == "A" then some (11/10)
          else if pk == "B" then some (28/25) else none) =
      some (83/75) := by
  have hgen : ∀ (cfg : List (String × ℚ)) (fetch : String → Option ℚ),
      (∀ pw ∈ cfg, 0 < pw.2) → successes cfg fetch ≠ [] →
      aggregate cfg fetch =
        some (quoteSum (successes cfg fetch) / weightSum (successes cfg fetch)) := by
    intro cfg fetch hw hne
    rw [aggregate_eq, if_pos (weightSum_pos hw hne)]
  refine ⟨hgen, fun fetch hne => hgen PROVIDER_CONFIG fetch ?_ hne, ?_⟩
  · intro pw hpw
    fin_cases hpw <;> norm_num
  · simp [aggregate, aggLoop]
    norm_num

/-- C1 witness: the `PROVIDER_CONFIG` conjunct applied to an oracle on
which the first and third provider succeed and the second fails. -/
theorem C1_weighted_mean_witness :
    get_advanced_forex_rate
        (fun pk => if pk == "EXCHANGERATE_HOST" then some (11/10)
          else if pk == "OPEN_EXCHANGE_RATES" then some (28/25) else none) =
      some (quoteSum (successes PROVIDER_CONFIG
          (fun pk => if pk == "EXCHANGERATE_HOST" then some (11/10)
            else if pk == "OPEN_EXCHANGE_RATES" then some (28/25) else none)) /
        weightSum (successes PROVIDER_CONFIG
          (fun pk => if pk == "EXCHANGERATE_HOST" then some (11/10)
            else if pk == "OPEN_EXCHANGE_RATES" then some (28/25) else none))) :=
  C1_weighted_mean.2.1 _ (by decide)

/-- C4: each provider fetch fails closed — a failed or malformed response
(`resps pk = none`) or a response missing the requested pair yields no
quote from that provider only; a provider failing leaves the aggregation
equal to the aggregation over the remaining providers; and when every
configured provider fails, `get_advanced_forex_rate` returns `none`
(rather than raising or returning zero). -/
theorem C4_fail_closed :
    (∀ (resps : String → Option RateTable) (pk base target : String),
      pk ∈ providerKeys → resps pk = none →
      fetch_forex_rate resps pk base target = none)
    ∧ (∀ (resps : String → Option RateTable) (pk base target : String)
        (table : RateTable), pk ∈ providerKeys → resps pk = some table →
      table.lookup target = none → table.lookup base = none →
      fetch_forex_rate resps pk base target = none)
    ∧ (∀ fetch : String → Option ℚ, (∀ pw ∈ PROVIDER_CONFIG, fetch pw.1 = none) →
      get_advanced_forex_rate fetch = none)
    ∧ (∀ (fetch : String → Option ℚ) (pk : String), fetch pk = none →
      get_advanced_forex_rate fetch =
        aggregate (PROVIDER_CONFIG.filter fun pw => !(pw.1 == pk)) fetch) := by
  refine ⟨?_, ?_, ?_, ?_⟩
  · intro resps pk base target hpk hresp
    simp only [providerKeys, PROVIDER_CONFIG, List.map_cons, List.map_nil,
      List.mem_cons, List.not_mem_nil, or_false] at hpk
    rcases hpk with rfl | rfl | rfl <;> simp [fetch_forex_rate, hresp]
  · intro resps pk base target table hpk hresp ht hbase
    simp only [providerKeys, PROVIDER_CONFIG, List.map_cons, List.map_nil,
      List.mem_cons, List.not_mem_nil, or_false] at hpk
    rcases hpk with rfl | rfl | rfl
    · simp [fetch_forex_rate, hresp, ht]
    · simp [fetch_forex_rate, hresp, ht]
    · by_cases hb : (base == "USD") = true <;>
        simp [fetch_forex_rate, hresp, ht, hbase, hb]
  · intro fetch h
    show aggregate PROVIDER_CONFIG fetch = none
    rw [aggregate_eq, successes_eq_nil h]
    norm_num [quoteSum, weightSum]
  · intro fetch pk h
    show aggregate PROVIDER_CONFIG fetch = _
    rw [aggregate_eq, aggregate_eq, successes_filter_failed h]

/-- C4 witness: the four conjuncts applied to concrete responses — a dead
provider, a response missing both legs of the pair, an all-providers-fail
cycle, and one failing provider among succeeding ones. -/
theorem C4_fail_closed_witness :
    fetch_forex_rate (fun _ => none) "EXCHANGERATE_HOST" "USD" "EUR" = none
    ∧ fetch_forex_rate (fun _ => some [("EUR", 2)]) "OPEN_EXCHANGE_RATES" "GBP" "JPY" = none
    ∧ get_advanced_forex_rate (fun _ => none) = none
    ∧ get_advanced_forex_rate
        (fun pk => if pk == "EXCHANGERATE_API" then none else some 1) =
      aggregate (PROVIDER_CONFIG.filter fun pw => !(pw.1 == "EXCHANGERATE_API"))
        (fun pk => if pk == "EXCHANGERATE_API" then none else some 1) :=
  ⟨C4_fail_closed.1 _ _ "USD" "EUR" (by decide) rfl,
   C4_fail_closed.2.1 _ _ "GBP" "JPY" _ (by decide) rfl (by decide) (by decide),
   C4_fail_closed.2.2.1 _ fun pw _ => rfl,
   C4_fail_closed.2.2.2 _ "EXCHANGERATE_API" (by decide)⟩

/-- C9: whenever at least one provider returns a rate, the aggregated
rate lies between any lower and upper bound enclosing all successful
quotes — in particular between their minimum and maximum — since every
configured reliability weight is positive. -/
theorem C9_convexity (fetch : String → Option ℚ) (lo hi : ℚ)
    (hne : successes PROVIDER_CONFIG fetch ≠ [])
    (hbound : ∀ q ∈ successes PROVIDER_CONFIG fetch, lo ≤ q.1 ∧ q.1 ≤ hi) :
    ∃ v, get_advanced_forex_rate fetch = some v ∧ lo ≤ v ∧ v ≤ hi := by
  have hw : ∀ pw ∈ PROVIDER_CONFIG, 0 < pw.2 := by
    intro pw hpw
    fin_cases hpw <;> norm_num
  have hpos := weightSum_pos hw hne
  have hnn : ∀ q ∈ successes PROVIDER_CONFIG fetch, 0 ≤ q.2 := by
    intro q hq
    rcases successes_weight_mem hq with ⟨pk, hpk⟩
    exact (hw _ hpk).le
  refine ⟨quoteSum (successes PROVIDER_CONFIG fetch) /
    weightSum (successes PROVIDER_CONFIG fetch), ?_, ?_, ?_⟩
  · show aggregate PROVIDER_CONFIG fetch = _
    rw [aggregate_eq, if_pos hpos]
  · rw [le_div_iff₀ hpos]
    exact le_quoteSum _ lo hnn fun q hq => (hbound q hq).1
  · rw [div_le_iff₀ hpos]
    exact quoteSum_le _ hi hnn fun q hq => (hbound q hq).2

/-- C9 witness: with successful rates 1, 2 and 3 the aggregated rate
stays within the interval `[1, 3]`. -/
theorem C9_convexity_witness :
    ∃ v, get_advanced_forex_rate
        (fun pk => if pk == "EXCHANGERATE_HOST" then some 1
          else if pk == "EXCHANGERATE_API" then some 2 else some 3) = some v
      ∧ 1 ≤ v ∧ v ≤ 3 :=
  C9_convexity _ 1 3 (by decide) (by decide)

/-- C2 (amended): for every active rule on the resolved symbol, an upper
threshold set to a nonzero value with `currentPrice >= upperThreshold`
emits an upper-breach trigger, and independently a lower threshold set to
a nonzero value with `currentPrice <= lowerThreshold` emits a lower-breach
trigger (both comparisons inclusive); inactive rules are skipped entirely.
A threshold stored as `0` is treated as unset by the source's truthiness
test and never compared. -/
theorem C2_threshold_alerts :
    (∀ (symbols : List Symbol) (alerts : List Alert) (name : String) (price : ℚ)
        (s : Symbol), (symbols.find? fun x => x.name == name) = some s →
      ∀ a ∈ alerts, a.symbol_id = s.id → a.active = true →
        (∀ u : ℚ, a.upper_threshold = some u → u ≠ 0 → u ≤ price →
          Trigger.mk Direction.above u price ∈
            check_and_trigger_alerts symbols alerts name price)
        ∧ (∀ l : ℚ, a.lower_threshold = some l → l ≠ 0 → price ≤ l →
          Trigger.mk Direction.below l price ∈
            check_and_trigger_alerts symbols alerts name price))
    ∧ (∀ (symbols : List Symbol) (alerts : List Alert) (name : String) (price : ℚ)
        (a : Alert), a.active = false →
      check_and_trigger_alerts symbols (a :: alerts) name price =
        check_and_trigger_alerts symbols alerts name price) := by
  constructor
  · intro symbols alerts name price s hs a ha hid hact
    constructor
    · intro u hu hu0 hup
      refine mem_check hs ha hid hact ?_
      simp [alertTriggers, upperTriggers, hu, hu0, hup]
    · intro l hl hl0 hlp
      refine mem_check hs ha hid hact ?_
      simp [alertTriggers, lowerTriggers, hl, hl0, hlp]
  · intro symbols alerts name price a hact
    exact check_cons_inactive hact

/-- C2 counterexample: the claim as stated also covers thresholds equal to
`0`, but `if alert.lower_threshold and ...` is false for a threshold of
`0.0`, so an active rule with lower threshold `0` emits nothing at a price
of `-1` even though `-1 <= 0`. -/
theorem C2_threshold_alerts_counterexample :
    (Alert.mk 1 none (some 0) true).active = true
    ∧ (Alert.mk 1 none (some 0) true).lower_threshold = some 0
    ∧ ((-1 : ℚ) ≤ 0)
    ∧ check_and_trigger_alerts [⟨1, "AAPL"⟩] [⟨1, none, some 0, true⟩] "AAPL" (-1) = [] := by
  refine ⟨rfl, rfl, by norm_num, ?_⟩
  norm_num [check_and_trigger_alerts, alertTriggers, upperTriggers, lowerTriggers]

/-- C2 witness: a rule with both thresholds set to `5` at price `5` fires
in both directions (inclusive comparisons), and prepending an inactive
rule leaves the emitted triggers unchanged. -/
theorem C2_threshold_alerts_witness :
    Trigger.mk Direction.above 5 5 ∈
      check_and_trigger_alerts [⟨1, "AAPL"⟩] [⟨1, some 5, some 5, true⟩] "AAPL" 5
    ∧ Trigger.mk Direction.below 5 5 ∈
      check_and_trigger_alerts [⟨1, "AAPL"⟩] [⟨1, some 5, some 5, true⟩] "AAPL" 5
    ∧ check_and_trigger_alerts [⟨1, "AAPL"⟩]
        [⟨1, some 9, none, false⟩, ⟨1, some 5, some 5, true⟩] "AAPL" 5 =
      check_and_trigger_alerts [⟨1, "AAPL"⟩] [⟨1, some 5, some 5, true⟩] "AAPL" 5 :=
  ⟨(C2_threshold_alerts.1 _ _ "AAPL" 5 ⟨1, "AAPL"⟩ (by decide)
      ⟨1, some 5, some 5, true⟩ (by decide) rfl rfl).1 5 rfl (by norm_num)
      (by norm_num),
   (C2_threshold_alerts.1 _ _ "AAPL" 5 ⟨1, "AAPL"⟩ (by decide)
      ⟨1, some 5, some 5, true⟩ (by decide) rfl rfl).2 5 rfl (by norm_num)
      (by norm_num),
   C2_threshold_alerts.2 _ _ "AAPL" 5 _ rfl⟩

/-- C8 (amended): an active rule whose set, nonzero lower threshold
exceeds its set, nonzero upper threshold emits both an upper-breach and a
lower-breach trigger in a single evaluation at any price between the two
thresholds; nothing guards against the double trigger. -/
theorem C8_double_trigger (s : Symbol) (a : Alert) (price u l : ℚ)
    (hid : a.symbol_id = s.id) (hact : a.active = true)
    (hu : a.upper_threshold = some u) (hl : a.lower_threshold = some l)
    (hu0 : u ≠ 0) (hl0 : l ≠ 0) (_hlt : u < l)
    (hup : u ≤ price) (hlp : price ≤ l) :
    check_and_trigger_alerts [s] [a] s.name price =
      [⟨Direction.above, u, price⟩, ⟨Direction.below, l, price⟩] := by
  unfold check_and_trigger_alerts
  have hfind : (List.find? (fun x => x.name == s.name) [s]) = some s := by
    simp [List.find?]
  rw [hfind]
  simp [List.filter_cons, hid, hact, alertTriggers, upperTriggers, lowerTriggers,
    hu, hl, hu0, hl0, hup, hlp]

/-- C8 counterexample: the claim as stated also covers an upper threshold
of `0`; with upper `0`, lower `1` and price `1/2` (which satisfies both
inclusive comparisons) only the lower-breach trigger is emitted, because
the truthiness test skips the zero upper threshold. -/
theorem C8_double_trigger_counterexample :
    ((0 : ℚ) < 1)
    ∧ ((0 : ℚ) ≤ 1/2) ∧ ((1/2 : ℚ) ≤ 1)
    ∧ check_and_trigger_alerts [⟨1, "AAPL"⟩] [⟨1, some 0, some 1, true⟩] "AAPL" (1/2) =
      [⟨Direction.below, 1, 1/2⟩] := by
  refine ⟨by norm_num, by norm_num, by norm_num, ?_⟩
  norm_num [check_and_trigger_alerts, alertTriggers, upperTriggers, lowerTriggers]

/-- C8 witness: upper `1`, lower `2`, price `3/2` — one evaluation emits
the two triggers, one per direction. -/
theorem C8_double_trigger_witness :
    check_and_trigger_alerts [⟨1, "AAPL"⟩] [⟨1, some 1, some 2, true⟩] "AAPL" (3/2) =
      [⟨Direction.above, 1, 3/2⟩, ⟨Direction.below, 2, 3/2⟩] :=
  C8_double_trigger ⟨1, "AAPL"⟩ _ (3/2) 1 2 rfl rfl rfl rfl (by norm_num)
    (by norm_num) (by norm_num) (by norm_num) (by norm_num)

/-- C7 (amended): with a non-USD base, the `OPEN_EXCHANGE_RATES` branch
emits `rates[target] / rates[base]` when both legs are present and the
base leg is nonzero, and abstains when either leg is missing; a base leg
of exactly `0` also makes it abstain, because the division raises
`ZeroDivisionError`, which the bare `except` converts to `None`. -/
theorem C7_indirect_pair (resps : String → Option RateTable) (rates : RateTable)
    (base target : String) (hbase : base ≠ "USD")
    (hresp : resps "OPEN_EXCHANGE_RATES" = some rates) :
    (∀ rb rt : ℚ, rates.lookup base = some rb → rates.lookup target = some rt →
      rb ≠ 0 →
      fetch_forex_rate resps "OPEN_EXCHANGE_RATES" base target = some (rt / rb))
    ∧ (rates.lookup base = none ∨ rates.lookup target = none →
      fetch_forex_rate resps "OPEN_EXCHANGE_RATES" base target = none) := by
  have hb : (base == "USD") = false := beq_eq_false_iff_ne.2 hbase
  constructor
  · intro rb rt h1 h2 hrb
    simp [fetch_forex_rate, hresp, hb, h1, h2, hrb]
  · rintro (h | h)
    · simp [fetch_forex_rate, hresp, hb, h]
    · rcases h1 : rates.lookup base with _ | rb <;>
        simp [fetch_forex_rate, hresp, hb, h, h1]

/-- C7 counterexample: a rate table carrying both legs of `EUR → GBP` but
with `rates["EUR"] = 0` makes the provider abstain (`None`), whereas the
claim demands a quote whenever both legs are present. -/
theorem C7_indirect_pair_counterexample :
    (([("EUR", (0 : ℚ)), ("GBP", 2)] : RateTable).lookup "EUR" = some 0)
    ∧ (([("EUR", (0 : ℚ)), ("GBP", 2)] : RateTable).lookup "GBP" = some 2)
    ∧ fetch_forex_rate
        (fun pk => if pk == "OPEN_EXCHANGE_RATES" then
          some [("EUR", 0), ("GBP", 2)] else none)
        "OPEN_EXCHANGE_RATES" "EUR" "GBP" = none :=
  ⟨by decide, by decide, by decide⟩

/-- C7 witness: with both legs present and a nonzero base leg the quote is
`rates[target] / rates[base]`; with the target leg missing the provider
abstains. -/
theorem C7_indirect_pair_witness :
    fetch_forex_rate
        (fun pk => if pk == "OPEN_EXCHANGE_RATES" then
          some [("EUR", 2), ("GBP", 3)] else none)
        "OPEN_EXCHANGE_RATES" "EUR" "GBP" = some (3 / 2)
    ∧ fetch_forex_rate
        (fun pk => if pk == "OPEN_EXCHANGE_RATES" then some [("EUR", 2)] else none)
        "OPEN_EXCHANGE_RATES" "EUR" "GBP" = none :=
  ⟨(C7_indirect_pair _ [("EUR", 2), ("GBP", 3)] "EUR" "GBP" (by decide)
      (by decide)).1 2 3 (by decide) (by decide) (by norm_num),
   (C7_indirect_pair _ [("EUR", 2)] "EUR" "GBP" (by decide) (by decide)).2
     (Or.inr (by decide))⟩

end PortfolioTracker
